import Mathlib

/-!
Shallow embedding of `src/brute_zip.py`: a password-recovery tool that scans
a wordlist against an encrypted ZIP member.  Library calls (zipfile, pyzipper,
the file system, the clock) are modelled as explicit inputs; Python byte
strings are lists of naturals; raised exceptions are `Except` errors.
-/

namespace BruteZip

/-- Python exception classes the probes distinguish: `RuntimeError` has its
own handler, every other exception falls to the bare `except`. -/
inductive PyErr where
  | runtime
  | other
deriving DecidableEq, Repr

/-- Result of a fallible Python library call: a value or a raised exception. -/
abbrev PyRes (α : Type) := Except PyErr α

/-- Outcome of `ZipFile(zip_path)`, the three handlers of lines 72-82. -/
inductive ZipOpenErr where
  | fileNotFound
  | badZip
  | other (msg : String)
deriving DecidableEq, Repr

/-- The slice of a `zipfile.ZipFile` handle the program touches:
`namelist()` (which may raise, line 85-89) and the member open plus
1-byte read used by the password probe (lines 40-42). -/
structure ZipHandle where
  namelistRes : Except String (List String)
  openMember : String → List Nat → PyRes Unit
  readByte : String → List Nat → PyRes Unit

/-- The slice of the optional `pyzipper` dependency the program uses:
`AESZipFile(zip_path)`, the member open with a password, and the 1-byte
read (lines 54-56). -/
structure PyzipperModule where
  openArchive : String → PyRes Unit
  openMember : String → String → List Nat → PyRes Unit
  readByte : String → String → List Nat → PyRes Unit

/-- Outcome of reading a whole file from the file system. -/
inductive FsRead where
  | notFound
  | ioError (msg : String)
  | ok (bytes : List Nat)

/-- Error raised by the wordlist reader: `FileNotFoundError` or any other
read failure (both re-raised by `iter_wordlist`, lines 32-35). -/
inductive WlErr where
  | fileNotFound
  | ioError (msg : String)
deriving DecidableEq, Repr

/-- Everything outside the program that `find_password` consults. -/
structure Env where
  zipfileOpen : String → Except ZipOpenErr ZipHandle
  pyzipperModule : Option PyzipperModule
  fs : String → FsRead

/-- Observable actions of a run.  `close` models an explicit release of the
archive handle (a `z.close()` call or a `with` block exit). -/
inductive Ev where
  | stderrLine (msg : String)
  | wordlistOpen
  | readCand (c : String)
  | probePrimary (member : String) (pwd : List Nat)
  | probeSecondary (member : String) (pwd : List Nat)
  | close
deriving DecidableEq, Repr

/-- Exit code, standard-output lines and emitted events of one run. -/
structure RunResult where
  exitCode : Nat
  stdout : List String
  events : List Ev
deriving DecidableEq, Repr

/-! ### Text encoding: `candidate.encode(enc)` -/

/-- UTF-8 bytes of one unicode scalar value. -/
def utf8EncodeChar (c : Nat) : List Nat :=
  if c < 0x80 then [c]
  else if c < 0x800 then [0xC0 + c / 0x40, 0x80 + c % 0x40]
  else if c < 0x10000 then
    [0xE0 + c / 0x1000, 0x80 + c / 0x40 % 0x40, 0x80 + c % 0x40]
  else
    [0xF0 + c / 0x40000, 0x80 + c / 0x1000 % 0x40, 0x80 + c / 0x40 % 0x40,
      0x80 + c % 0x40]

/-- Bytes of `candidate.encode("utf-8")`.  Lean characters are exactly the
unicode scalar values, so this encoding never fails (Python strings produced
by utf-8 decoding contain no lone surrogate either). -/
def utf8Bytes (s : String) : List Nat :=
  (s.data.map (fun c => utf8EncodeChar c.toNat)).flatten

/-- Bytes of `candidate.encode("latin-1")`: fails (raises, modelled `none`)
when a character is above U+00FF. -/
def latin1Bytes (s : String) : Option (List Nat) :=
  if s.data.all (fun c => c.toNat < 0x100) then some (s.data.map (fun c => c.toNat))
  else none

/-- The two encodings of line 120, in their loop order. -/
inductive Enc where
  | utf8
  | latin1
deriving DecidableEq, Repr

/-- Model of `candidate.encode(enc)` under the `try` of lines 121-124:
`none` is the swallowed exception. -/
def encodeCand (c : String) : Enc → Option (List Nat)
  | .utf8 => some (utf8Bytes c)
  | .latin1 => latin1Bytes c

/-! ### The two verification probes -/

/-- Model of `try_zipfile_open`: open the member with the candidate bytes and
read one byte; `RuntimeError` and every other exception collapse to `false`
(lines 44-49). -/
def try_zipfile_open (z : ZipHandle) (member : String) (pwd_bytes : List Nat) : Bool :=
  match z.openMember member pwd_bytes with
  | .error .runtime => false
  | .error .other => false
  | .ok _ =>
    match z.readByte member pwd_bytes with
    | .error .runtime => false
    | .error .other => false
    | .ok _ => true

/-- Model of `try_pyzipper`: reopen the archive with pyzipper, open the
member, read one byte; every exception collapses to `false` (lines 58-61). -/
def try_pyzipper (zip_path : String) (member : String) (pwd_bytes : List Nat)
    (m : PyzipperModule) : Bool :=
  match m.openArchive zip_path with
  | .error .runtime => false
  | .error .other => false
  | .ok _ =>
    match m.openMember zip_path member pwd_bytes with
    | .error .runtime => false
    | .error .other => false
    | .ok _ =>
      match m.readByte zip_path member pwd_bytes with
      | .error .runtime => false
      | .error .other => false
      | .ok _ => true

/-! ### The wordlist reader -/

/-- Whether a byte is a UTF-8 continuation byte. -/
def isCont (b : Nat) : Bool := 0x80 ≤ b && b ≤ 0xBF

/-- Length of the UTF-8 sequence a lead byte announces (0 for an invalid
lead byte). -/
def utf8SeqLen (b : Nat) : Nat :=
  if b < 0x80 then 1
  else if 0xC2 ≤ b && b ≤ 0xDF then 2
  else if 0xE0 ≤ b && b ≤ 0xEF then 3
  else if 0xF0 ≤ b && b ≤ 0xF4 then 4
  else 0

/-- Lower bound on the first continuation byte (rules out overlong forms
and surrogates). -/
def cont2Lo (b : Nat) : Nat :=
  if b = 0xE0 then 0xA0 else if b = 0xF0 then 0x90 else 0x80

/-- Upper bound on the first continuation byte (rules out surrogates and
scalars above U+10FFFF). -/
def cont2Hi (b : Nat) : Nat :=
  if b = 0xED then 0x9F else if b = 0xF4 then 0x8F else 0xBF

/-- One step of Python's utf-8 decoder with `errors="ignore"`: how many
bytes are consumed (at least one) and the decoded scalar, if the input
begins with a well-formed sequence; the maximal subpart of an ill-formed
prefix is consumed and dropped without producing a scalar. -/
def utf8Step : List Nat → Nat × Option Nat
  | [] => (1, none)
  | b :: rest =>
    if b < 0x80 then (1, some b)
    else
      match utf8SeqLen b with
      | 2 =>
        match rest with
        | b2 :: _ =>
          if isCont b2 then (2, some ((b % 0x20) * 0x40 + b2 % 0x40)) else (1, none)
        | [] => (1, none)
      | 3 =>
        match rest with
        | b2 :: rest2 =>
          if cont2Lo b ≤ b2 && b2 ≤ cont2Hi b then
            match rest2 with
            | b3 :: _ =>
              if isCont b3 then
                (3, some ((b % 0x10) * 0x1000 + (b2 % 0x40) * 0x40 + b3 % 0x40))
              else (2, none)
            | [] => (2, none)
          else (1, none)
        | [] => (1, none)
      | 4 =>
        match rest with
        | b2 :: rest2 =>
          if cont2Lo b ≤ b2 && b2 ≤ cont2Hi b then
            match rest2 with
            | b3 :: rest3 =>
              if isCont b3 then
                match rest3 with
                | b4 :: _ =>
                  if isCont b4 then
                    (4, some ((b % 8) * 0x40000 + (b2 % 0x40) * 0x1000 +
                      (b3 % 0x40) * 0x40 + b4 % 0x40))
                  else (3, none)
                | [] => (3, none)
              else (2, none)
            | [] => (2, none)
          else (1, none)
        | [] => (1, none)
      | _ => (1, none)

/-- Driver of the decoder; the fuel starts at the byte count and each step
consumes at least one byte, so the run always completes. -/
def utf8DecodeIgnoreAux : Nat → List Nat → List Char
  | 0, _ => []
  | _, [] => []
  | fuel + 1, l =>
    let step := utf8Step l
    let rest := l.drop (max step.1 1)
    match step.2 with
    | some v => Char.ofNat v :: utf8DecodeIgnoreAux fuel rest
    | none => utf8DecodeIgnoreAux fuel rest

/-- Python's `bytes.decode("utf-8", errors="ignore")`: total, malformed
sequences are dropped, never fatal. -/
def utf8DecodeIgnore (l : List Nat) : List Char :=
  utf8DecodeIgnoreAux l.length l

/-- Universal-newline translation of text-mode reading (`open(path, "r")`):
CRLF and lone CR become LF. -/
def univNewlines : List Char → List Char
  | [] => []
  | '\r' :: '\n' :: rest => '\n' :: univNewlines rest
  | '\r' :: rest => '\n' :: univNewlines rest
  | c :: rest => c :: univNewlines rest

/-- The chunks Python's text-line iteration (`for line in f`) yields: each
chunk ends with the newline that closed it, the final one may not; nothing
is yielded after the final newline of the file. -/
def pyLinesAux (acc : List Char) : List Char → List (List Char)
  | [] => if acc.isEmpty then [] else [acc.reverse]
  | c :: rest =>
    if c = '\n' then (acc.reverse ++ ['\n']) :: pyLinesAux [] rest
    else pyLinesAux (c :: acc) rest

/-- All line chunks of a text, in order. -/
def pyLines (cs : List Char) : List (List Char) := pyLinesAux [] cs

/-- Model of `line.rstrip(nlcr)` for the two line-ending characters: drops
every trailing LF or CR. -/
def rstripNl : List Char → List Char
  | [] => []
  | c :: rest =>
    let r := rstripNl rest
    if r.isEmpty && (c = '\n' || c = '\r') then [] else c :: r

/-- Python string truthiness: non-empty. -/
def pyTruthy (s : String) : Bool := !s.data.isEmpty

/-- Model of `m.endswith(sep)` for the one-character path separator the
member filter uses (line 86). -/
def endsWithSlash (m : String) : Bool :=
  match m.data.getLast? with
  | some c => c = '/'
  | none => false

/-- Model of `iter_wordlist`, run to exhaustion: the candidates the
generator yields in order, or the error it raises.  Reading decodes the
file's bytes as utf-8 with `errors="ignore"`, iterates the text lines,
strips trailing LF and CR, and yields only truthy (non-empty) results. -/
def iter_wordlist (fs : String → FsRead) (path : String) : Except WlErr (List String) :=
  match fs path with
  | .notFound => .error .fileNotFound
  | .ioError m => .error (.ioError m)
  | .ok bytes =>
    .ok ((((pyLines (univNewlines (utf8DecodeIgnore bytes))).map
      (fun l => String.mk (rstripNl l))).filter pyTruthy))

/-! ### The verification orchestrator: `find_password` -/

/-- Message a `ZipFile(zip_path)` failure prints to stderr (lines 74-82). -/
def zipOpenErrMsg (zip_path : String) : ZipOpenErr → String
  | .fileNotFound => "Erro: arquivo \'" ++ zip_path ++ "\' não encontrado."
  | .badZip => "Erro: \'" ++ zip_path ++ "\' não é um ZIP válido ou está corrompido."
  | .other e => "Erro abrindo zip: " ++ e

/-- The verbose progress line of line 140; the elapsed-time text comes from
the clock. -/
def progressMsg (n : Nat) (elapsed : String) : String :=
  "[debug] tentadas=" ++ toString n ++ " tempo=" ++ elapsed ++ "s"

/-- One encoding attempt of the scanning loop body (lines 120-135): encode
the candidate (a failure skips the attempt silently), probe the built-in
reader, and on a `false` result probe pyzipper when it is present.  Returns
the probe events and whether the attempt succeeded. -/
def tryEncoding (z : ZipHandle) (pyz : Option PyzipperModule)
    (zip_path target cand : String) (enc : Enc) : List Ev × Bool :=
  match encodeCand cand enc with
  | none => ([], false)
  | some pwd =>
    if try_zipfile_open z target pwd then ([Ev.probePrimary target pwd], true)
    else
      match pyz with
      | none => ([Ev.probePrimary target pwd], false)
      | some m =>
        ([Ev.probePrimary target pwd, Ev.probeSecondary target pwd],
          try_pyzipper zip_path target pwd m)

/-- The inner `for enc in (utf-8, latin-1)` loop for one candidate:
utf-8 first, latin-1 only when utf-8 did not succeed. -/
def tryCandidate (z : ZipHandle) (pyz : Option PyzipperModule)
    (zip_path target cand : String) : List Ev × Bool :=
  let u := tryEncoding z pyz zip_path target cand Enc.utf8
  if u.2 then u
  else
    let l := tryEncoding z pyz zip_path target cand Enc.latin1
    (u.1 ++ l.1, l.2)

/-- Whether some (encoding, capability) combination verifies a candidate. -/
def candMatches (z : ZipHandle) (pyz : Option PyzipperModule)
    (zip_path target cand : String) : Bool :=
  (tryCandidate z pyz zip_path target cand).2

/-- The stderr events of the progress report (lines 137-140): one line when
verbose and the attempt count is a multiple of 100. -/
def progressEvs (verbose : Bool) (clock : Nat → String) (tried1 : Nat) : List Ev :=
  if verbose && tried1 % 100 == 0 then
    [Ev.stderrLine (progressMsg tried1 (clock tried1))]
  else []

/-- The candidate loop of lines 112-140: walks the wordlist in order,
stopping at the first match; the counter argument is `total_tried` so far.
Returns the emitted events and the found candidate, if any. -/
def scan (z : ZipHandle) (pyz : Option PyzipperModule) (zip_path target : String)
    (verbose : Bool) (clock : Nat → String) :
    Nat → List String → List Ev × Option String
  | _, [] => ([], none)
  | tried, cand :: rest =>
    let tried1 := tried + 1
    if pyTruthy cand = false then
      let r := scan z pyz zip_path target verbose clock tried1 rest
      (Ev.readCand cand :: r.1, r.2)
    else
      let t := tryCandidate z pyz zip_path target cand
      if t.2 then (Ev.readCand cand :: t.1, some cand)
      else
        let r := scan z pyz zip_path target verbose clock tried1 rest
        (Ev.readCand cand :: (t.1 ++ progressEvs verbose clock tried1 ++ r.1), r.2)

/-- The events emitted between member selection and the first wordlist
read: the verbose debug lines of lines 96-108, then the opening of the
wordlist file by the generator's first pull. -/
def preEvents (verbose : Bool) (pyz : Option PyzipperModule) (target : String) : List Ev :=
  (if verbose then
    [Ev.stderrLine ("[debug] membro interno para teste: " ++ target)]
  else []) ++
  (if verbose then
    match pyz with
    | some _ => [Ev.stderrLine "[debug] pyzipper encontrado — fallback AES habilitado."]
    | none => [Ev.stderrLine "[debug] pyzipper NÃO instalado — AES fallback desabilitado."]
  else []) ++ [Ev.wordlistOpen]

/-- Model of `find_password`: the whole run.  `clock` supplies the
elapsed-time text the verbose progress line prints after a given number of
attempts (the only influence of `time.time()` on any output). -/
def find_password (env : Env) (zip_path wordlist_path : String)
    (verbose : Bool) (clock : Nat → String) : RunResult :=
  match env.zipfileOpen zip_path with
  | .error e => ⟨2, [], [Ev.stderrLine (zipOpenErrMsg zip_path e)]⟩
  | .ok z =>
    match z.namelistRes with
    | .error e => ⟨2, [], [Ev.stderrLine ("Erro ao listar conteúdo do zip: " ++ e)]⟩
    | .ok names =>
      match names.filter (fun m => !endsWithSlash m) with
      | [] => ⟨2, [], [Ev.stderrLine "Erro: ZIP não contém arquivos testáveis."]⟩
      | target :: _ =>
        let pre := preEvents verbose env.pyzipperModule target
        match iter_wordlist env.fs wordlist_path with
        | .error .fileNotFound =>
          ⟨2, [],
            pre ++ [Ev.stderrLine ("Erro: wordlist \'" ++ wordlist_path ++ "\' não encontrada.")]⟩
        | .error (.ioError e) =>
          ⟨2, [], pre ++ [Ev.stderrLine ("Erro lendo wordlist: " ++ e)]⟩
        | .ok cands =>
          let r := scan z env.pyzipperModule zip_path target verbose clock 0 cands
          match r.2 with
          | some c => ⟨0, [c], pre ++ r.1⟩
          | none => ⟨1, [], pre ++ r.1⟩

/-! ### Spec-side description of the wordlist reader (for C6) -/

/-- Proof helper: split a text at LF characters, keeping only the content of
each line; the final segment is always produced, even when empty. -/
def splitLFAux (acc : List Char) : List Char → List (List Char)
  | [] => [acc.reverse]
  | c :: rest =>
    if c = '\n' then acc.reverse :: splitLFAux [] rest
    else splitLFAux (c :: acc) rest

/-- Modelled from the spec: the source's lines, split at CRLF, LF or CR
boundaries with the terminators dropped ("one per input line, with any
trailing carriage-return/newline characters stripped"). -/
def specSplitAux (acc : List Char) : List Char → List (List Char)
  | [] => [acc.reverse]
  | '\r' :: '\n' :: rest => acc.reverse :: specSplitAux [] rest
  | '\n' :: rest => acc.reverse :: specSplitAux [] rest
  | '\r' :: rest => acc.reverse :: specSplitAux [] rest
  | c :: rest => specSplitAux (c :: acc) rest

/-- Modelled from the spec: the non-empty lines of a text, in order
("lines that are empty after stripping are silently omitted"). -/
def specLines (cs : List Char) : List String :=
  ((specSplitAux [] cs).map String.mk).filter pyTruthy

/-! ### Predicates over runs, and the spec-side attempt order (for C2/C3) -/

/-- Whether an event is a wordlist read. -/
def isReadCand : Ev → Bool
  | .readCand _ => true
  | _ => false

/-- The structural-error conditions of the spec's taxonomy: archive open
fails (missing, malformed, other), listing fails, no non-directory entry,
or the wordlist read raises. -/
def structuralFailure (env : Env) (zip_path wordlist_path : String) : Prop :=
  (∃ e, env.zipfileOpen zip_path = .error e) ∨
  (∃ z, env.zipfileOpen zip_path = .ok z ∧
    ((∃ m, z.namelistRes = .error m) ∨
     (∃ names, z.namelistRes = .ok names ∧
       (names.filter (fun m => !endsWithSlash m) = [] ∨
        ∃ e, iter_wordlist env.fs wordlist_path = .error e))))

/-- Modelled from the spec (section 4.3): one encoding attempt — encode the
candidate (on failure skip the attempt silently), call the primary probe,
and on a false result call the secondary probe when that capability is
available.  Returns the attempts made and whether one succeeded. -/
def specEncAttempt (target : String) (primary : List Nat → Bool)
    (secondary : Option (List Nat → Bool)) : Option (List Nat) → List Ev × Bool
  | none => ([], false)
  | some pwd =>
    if primary pwd then ([Ev.probePrimary target pwd], true)
    else
      match secondary with
      | none => ([Ev.probePrimary target pwd], false)
      | some s =>
        ([Ev.probePrimary target pwd, Ev.probeSecondary target pwd], s pwd)

/-- Modelled from the spec (section 4.3): the attempts for one candidate
walk the encodings in the fixed order given, stopping at the first
success. -/
def specAttempts (target : String) (primary : List Nat → Bool)
    (secondary : Option (List Nat → Bool)) (cand : String) :
    List Enc → List Ev × Bool
  | [] => ([], false)
  | e :: es =>
    let a := specEncAttempt target primary secondary (encodeCand cand e)
    if a.2 then a
    else
      let r := specAttempts target primary secondary cand es
      (a.1 ++ r.1, r.2)

/-- A concrete archive handle for witnesses: one directory entry then two
files; the member opens exactly under the password bytes of "123". -/
def zW : ZipHandle :=
  { namelistRes := .ok ["dir/", "a.txt", "b.txt"]
    openMember := fun _ pwd => if pwd = [49, 50, 51] then .ok () else .error .runtime
    readByte := fun _ _ => .ok () }

/-- A concrete environment for witnesses: the archive above, no pyzipper,
and a wordlist file holding the bytes of "ad\r\n123\nx\n". -/
def envW : Env :=
  { zipfileOpen := fun _ => .ok zW
    pyzipperModule := none
    fs := fun _ => .ok [97, 100, 13, 10, 49, 50, 51, 10, 120, 10] }

theorem univNewlines_crlf (rest : List Char) :
    univNewlines ('\r' :: '\n' :: rest) = '\n' :: univNewlines rest := rfl

theorem univNewlines_cr (a : Char) (rest : List Char) (h : a ≠ '\n') :
    univNewlines ('\r' :: a :: rest) = '\n' :: univNewlines (a :: rest) := by
  rw [univNewlines.eq_def]
  split <;> try simp_all
  rename_i hcond heq
  exact absurd heq.1.symm hcond

theorem univNewlines_other (a : Char) (rest : List Char) (h : a ≠ '\r') :
    univNewlines (a :: rest) = a :: univNewlines rest := by
  rw [univNewlines.eq_def]
  split <;> try simp_all

theorem univNewlines_no_cr (cs : List Char) : ∀ c ∈ univNewlines cs, c ≠ '\r' := by
  induction cs using univNewlines.induct with
  | case1 => intro c hc; simp [univNewlines] at hc
  | case2 rest ih =>
    rw [univNewlines_crlf]
    intro c hc
    rcases List.mem_cons.mp hc with h | h
    · subst h; decide
    · exact ih c h
  | case3 rest hres ih =>
    cases rest with
    | nil =>
      intro c hc
      rcases List.mem_cons.mp hc with h | h
      · subst h; decide
      · simp [univNewlines] at h
    | cons a rest2 =>
      have ha : a ≠ '\n' := fun he => hres rest2 (by rw [he])
      rw [univNewlines_cr a rest2 ha]
      intro c hc
      rcases List.mem_cons.mp hc with h | h
      · subst h; decide
      · exact ih c h
  | case4 a rest h1 h2 ih =>
    have ha : a ≠ '\r' := fun he => h2 he
    rw [univNewlines_other a rest ha]
    intro c hc
    rcases List.mem_cons.mp hc with h | h
    · subst h; exact ha
    · exact ih c h

theorem specSplitAux_eq_splitLF (cs : List Char) : ∀ acc,
    specSplitAux acc cs = splitLFAux acc (univNewlines cs) := by
  induction cs using univNewlines.induct with
  | case1 => intro acc; rfl
  | case2 rest ih =>
    intro acc
    rw [univNewlines_crlf, specSplitAux, splitLFAux]
    simp [ih]
  | case3 rest hres ih =>
    intro acc
    cases rest with
    | nil => rfl
    | cons a rest2 =>
      have ha : a ≠ '\n' := fun he => hres rest2 (by rw [he])
      rw [univNewlines_cr a rest2 ha, specSplitAux.eq_def]
      split <;> try simp_all [splitLFAux]
      rename_i hcond heq
      exact absurd heq.1.symm hcond
  | case4 a rest h1 h2 ih =>
    intro acc
    have ha : a ≠ '\r' := fun he => h2 he
    rw [univNewlines_other a rest ha, specSplitAux.eq_def]
    split <;> simp_all [splitLFAux]

theorem rstripNl_no_nl (l : List Char) (h : ∀ c ∈ l, c ≠ '\n' ∧ c ≠ '\r') :
    rstripNl l = l := by
  induction l with
  | nil => rfl
  | cons c rest ih =>
    have hc := h c (List.mem_cons_self ..)
    have hr := ih (fun d hd => h d (List.mem_cons_of_mem _ hd))
    simp [rstripNl, hr, hc.1, hc.2]

theorem rstripNl_append_nl (l : List Char) (h : ∀ c ∈ l, c ≠ '\n' ∧ c ≠ '\r') :
    rstripNl (l ++ ['\n']) = l := by
  induction l with
  | nil => rfl
  | cons c rest ih =>
    have hc := h c (List.mem_cons_self ..)
    have hr := ih (fun d hd => h d (List.mem_cons_of_mem _ hd))
    rw [List.cons_append, rstripNl, hr]
    simp [hc.1, hc.2]

theorem pyLinesAux_spec (cs : List Char) : ∀ acc,
    (∀ c ∈ cs, c ≠ '\r') → (∀ c ∈ acc, c ≠ '\n' ∧ c ≠ '\r') →
    ((pyLinesAux acc cs).map (fun l => String.mk (rstripNl l))).filter pyTruthy
      = ((splitLFAux acc cs).map String.mk).filter pyTruthy := by
  induction cs with
  | nil =>
    intro acc hcs hacc
    rw [pyLinesAux, splitLFAux]
    cases hae : acc.isEmpty
    · have hne : acc ≠ [] := by
        intro he; rw [he] at hae; simp at hae
      have hrs : rstripNl acc.reverse = acc.reverse :=
        rstripNl_no_nl _ (fun c hc => hacc c (List.mem_reverse.mp hc))
      simp [hae, hrs]
    · have he : acc = [] := by
        cases acc with
        | nil => rfl
        | cons a l => simp at hae
      subst he
      simp [pyTruthy]
  | cons c rest ih =>
    intro acc hcs hacc
    have hcr : c ≠ '\r' := hcs c (List.mem_cons_self ..)
    have hrest : ∀ d ∈ rest, d ≠ '\r' := fun d hd => hcs d (List.mem_cons_of_mem _ hd)
    by_cases hcn : c = '\n'
    · subst hcn
      rw [pyLinesAux, splitLFAux]
      have hrs : rstripNl (acc.reverse ++ ['\n']) = acc.reverse :=
        rstripNl_append_nl _ (fun d hd => hacc d (List.mem_reverse.mp hd))
      simp only [if_pos trivial, List.map_cons, List.filter_cons, hrs]
      rw [ih [] hrest (by simp)]
    · rw [pyLinesAux, splitLFAux, if_neg hcn, if_neg hcn]
      exact ih (c :: acc) hrest
        (fun d hd => by
          rcases List.mem_cons.mp hd with h | h
          · subst h; exact ⟨hcn, hcr⟩
          · exact hacc d h)

/-- The candidates `iter_wordlist` yields are exactly the non-empty lines of
the decoded text, in file order. -/
theorem iter_wordlist_ok (fs : String → FsRead) (path : String) (bytes : List Nat)
    (h : fs path = .ok bytes) :
    iter_wordlist fs path = .ok (specLines (utf8DecodeIgnore bytes)) := by
  simp only [iter_wordlist, h]
  congr 1
  unfold specLines pyLines
  rw [specSplitAux_eq_splitLF]
  exact pyLinesAux_spec _ [] (univNewlines_no_cr _) (by simp)

/-- Every candidate `iter_wordlist` yields is non-empty (truthy). -/
theorem iter_wordlist_truthy (fs : String → FsRead) (path : String)
    (cands : List String) (h : iter_wordlist fs path = .ok cands) :
    ∀ c ∈ cands, pyTruthy c = true := by
  rw [iter_wordlist] at h
  cases hf : fs path with
  | notFound => rw [hf] at h; cases h
  | ioError m => rw [hf] at h; cases h
  | ok bytes =>
    rw [hf] at h
    cases h
    intro c hc
    exact List.of_mem_filter hc

/-! ### Unfolding and shape lemmas for the candidate loop -/

theorem tryEncoding_eq_specEncAttempt (z : ZipHandle) (pyz : Option PyzipperModule)
    (zip_path target cand : String) (enc : Enc) :
    tryEncoding z pyz zip_path target cand enc
      = specEncAttempt target (try_zipfile_open z target)
          (pyz.map (fun m pwd => try_pyzipper zip_path target pwd m))
          (encodeCand cand enc) := by
  rcases he : encodeCand cand enc with _ | pwd
  · simp [tryEncoding, specEncAttempt, he]
  · by_cases hp : try_zipfile_open z target pwd
    · simp [tryEncoding, specEncAttempt, he, hp]
    · cases pyz with
      | none => simp [tryEncoding, specEncAttempt, he, hp]
      | some m => simp [tryEncoding, specEncAttempt, he, hp]

theorem tryEncoding_events (z : ZipHandle) (pyz : Option PyzipperModule)
    (zip_path target cand : String) (enc : Enc) :
    ∀ ev ∈ (tryEncoding z pyz zip_path target cand enc).1,
      (∃ p, ev = Ev.probePrimary target p) ∨ (∃ p, ev = Ev.probeSecondary target p) := by
  intro ev hev
  rcases he : encodeCand cand enc with _ | pwd <;> simp only [tryEncoding, he] at hev
  · simp at hev
  · by_cases hp : try_zipfile_open z target pwd
    · rw [if_pos hp] at hev
      simp at hev
      exact Or.inl ⟨pwd, hev⟩
    · rw [if_neg hp] at hev
      cases pyz with
      | none =>
        simp at hev
        exact Or.inl ⟨pwd, hev⟩
      | some m =>
        simp at hev
        rcases hev with h | h
        · exact Or.inl ⟨pwd, h⟩
        · exact Or.inr ⟨pwd, h⟩

theorem tryCandidate_events (z : ZipHandle) (pyz : Option PyzipperModule)
    (zip_path target cand : String) :
    ∀ ev ∈ (tryCandidate z pyz zip_path target cand).1,
      (∃ p, ev = Ev.probePrimary target p) ∨ (∃ p, ev = Ev.probeSecondary target p) := by
  intro ev hev
  rw [tryCandidate] at hev
  by_cases hu : (tryEncoding z pyz zip_path target cand Enc.utf8).2
  · rw [if_pos hu] at hev
    exact tryEncoding_events z pyz zip_path target cand Enc.utf8 ev hev
  · rw [if_neg hu] at hev
    simp only [List.mem_append] at hev
    rcases hev with h | h
    · exact tryEncoding_events z pyz zip_path target cand Enc.utf8 ev h
    · exact tryEncoding_events z pyz zip_path target cand Enc.latin1 ev h

theorem progressEvs_events (verbose : Bool) (clock : Nat → String) (tried1 : Nat) :
    ∀ ev ∈ progressEvs verbose clock tried1, ∃ m, ev = Ev.stderrLine m := by
  intro ev hev
  rw [progressEvs] at hev
  split at hev
  · simp at hev
    exact ⟨_, hev⟩
  · simp at hev

theorem preEvents_events (verbose : Bool) (pyz : Option PyzipperModule) (target : String) :
    ∀ ev ∈ preEvents verbose pyz target,
      (∃ m, ev = Ev.stderrLine m) ∨ ev = Ev.wordlistOpen := by
  intro ev hev
  rw [preEvents.eq_def] at hev
  simp only [List.mem_append] at hev
  rcases hev with (h | h) | h
  · split at h
    · simp at h; exact Or.inl ⟨_, h⟩
    · simp at h
  · split at h
    · split at h <;> (simp at h; exact Or.inl ⟨_, h⟩)
    · simp at h
  · simp at h
    exact Or.inr h

theorem scan_nil (z : ZipHandle) (pyz : Option PyzipperModule) (zip_path target : String)
    (verbose : Bool) (clock : Nat → String) (tried : Nat) :
    scan z pyz zip_path target verbose clock tried [] = ([], none) := rfl

theorem scan_cons_empty (z : ZipHandle) (pyz : Option PyzipperModule)
    (zip_path target : String) (verbose : Bool) (clock : Nat → String) (tried : Nat)
    (cand : String) (rest : List String) (h : pyTruthy cand = false) :
    scan z pyz zip_path target verbose clock tried (cand :: rest)
      = (Ev.readCand cand :: (scan z pyz zip_path target verbose clock (tried + 1) rest).1,
         (scan z pyz zip_path target verbose clock (tried + 1) rest).2) := by
  rw [scan]
  simp [h]

theorem scan_cons_found (z : ZipHandle) (pyz : Option PyzipperModule)
    (zip_path target : String) (verbose : Bool) (clock : Nat → String) (tried : Nat)
    (cand : String) (rest : List String) (h : pyTruthy cand = true)
    (hm : (tryCandidate z pyz zip_path target cand).2 = true) :
    scan z pyz zip_path target verbose clock tried (cand :: rest)
      = (Ev.readCand cand :: (tryCandidate z pyz zip_path target cand).1, some cand) := by
  rw [scan]
  simp [h, hm]

theorem scan_cons_miss (z : ZipHandle) (pyz : Option PyzipperModule)
    (zip_path target : String) (verbose : Bool) (clock : Nat → String) (tried : Nat)
    (cand : String) (rest : List String) (h : pyTruthy cand = true)
    (hm : (tryCandidate z pyz zip_path target cand).2 = false) :
    scan z pyz zip_path target verbose clock tried (cand :: rest)
      = (Ev.readCand cand ::
          ((tryCandidate z pyz zip_path target cand).1 ++
            progressEvs verbose clock (tried + 1) ++
            (scan z pyz zip_path target verbose clock (tried + 1) rest).1),
         (scan z pyz zip_path target verbose clock (tried + 1) rest).2) := by
  rw [scan]
  simp [h, hm]

theorem scan_events_shape (z : ZipHandle) (pyz : Option PyzipperModule)
    (zip_path target : String) (verbose : Bool) (clock : Nat → String) :
    ∀ cands tried, ∀ ev ∈ (scan z pyz zip_path target verbose clock tried cands).1,
      (∃ c, ev = Ev.readCand c) ∨ (∃ m, ev = Ev.stderrLine m) ∨
      (∃ p, ev = Ev.probePrimary target p) ∨ (∃ p, ev = Ev.probeSecondary target p) := by
  intro cands
  induction cands with
  | nil => intro tried ev hev; rw [scan_nil] at hev; simp at hev
  | cons cand rest ih =>
    intro tried ev hev
    by_cases hp : pyTruthy cand = false
    · rw [scan_cons_empty z pyz zip_path target verbose clock tried cand rest hp] at hev
      rcases List.mem_cons.mp hev with h | h
      · exact Or.inl ⟨cand, h⟩
      · exact ih (tried + 1) ev h
    · rw [Bool.not_eq_false] at hp
      by_cases hm : (tryCandidate z pyz zip_path target cand).2 = true
      · rw [scan_cons_found z pyz zip_path target verbose clock tried cand rest hp hm] at hev
        rcases List.mem_cons.mp hev with h | h
        · exact Or.inl ⟨cand, h⟩
        · rcases tryCandidate_events z pyz zip_path target cand ev h with h2 | h2
          · exact Or.inr (Or.inr (Or.inl h2))
          · exact Or.inr (Or.inr (Or.inr h2))
      · rw [Bool.not_eq_true] at hm
        rw [scan_cons_miss z pyz zip_path target verbose clock tried cand rest hp hm] at hev
        rcases List.mem_cons.mp hev with h | h
        · exact Or.inl ⟨cand, h⟩
        · simp only [List.mem_append] at h
          rcases h with (h | h) | h
          · rcases tryCandidate_events z pyz zip_path target cand ev h with h2 | h2
            · exact Or.inr (Or.inr (Or.inl h2))
            · exact Or.inr (Or.inr (Or.inr h2))
          · rcases progressEvs_events verbose clock (tried + 1) ev h with ⟨m, h2⟩
            · exact Or.inr (Or.inl ⟨m, h2⟩)
          · exact ih (tried + 1) ev h

theorem tryCandidate_no_read (z : ZipHandle) (pyz : Option PyzipperModule)
    (zip_path target cand : String) :
    ((tryCandidate z pyz zip_path target cand).1).filter isReadCand = [] := by
  rw [List.filter_eq_nil_iff]
  intro ev hev
  rcases tryCandidate_events z pyz zip_path target cand ev hev with ⟨p, rfl⟩ | ⟨p, rfl⟩ <;>
    simp [isReadCand]

theorem progressEvs_no_read (verbose : Bool) (clock : Nat → String) (tried1 : Nat) :
    (progressEvs verbose clock tried1).filter isReadCand = [] := by
  rw [List.filter_eq_nil_iff]
  intro ev hev
  rcases progressEvs_events verbose clock tried1 ev hev with ⟨m, rfl⟩
  simp [isReadCand]

theorem preEvents_no_read (verbose : Bool) (pyz : Option PyzipperModule) (target : String) :
    (preEvents verbose pyz target).filter isReadCand = [] := by
  rw [List.filter_eq_nil_iff]
  intro ev hev
  rcases preEvents_events verbose pyz target ev hev with ⟨m, rfl⟩ | rfl <;> simp [isReadCand]

theorem scan_none (z : ZipHandle) (pyz : Option PyzipperModule) (zip_path target : String)
    (verbose : Bool) (clock : Nat → String) :
    ∀ cands tried,
      (∀ c ∈ cands, (tryCandidate z pyz zip_path target c).2 = false) →
      (scan z pyz zip_path target verbose clock tried cands).2 = none := by
  intro cands
  induction cands with
  | nil => intro tried _; rw [scan_nil]
  | cons cand rest ih =>
    intro tried h
    by_cases hp : pyTruthy cand = false
    · rw [scan_cons_empty _ _ _ _ _ _ _ _ _ hp]
      exact ih (tried + 1) (fun c hc => h c (List.mem_cons_of_mem _ hc))
    · rw [Bool.not_eq_false] at hp
      rw [scan_cons_miss _ _ _ _ _ _ _ _ _ hp (h cand (List.mem_cons_self ..))]
      exact ih (tried + 1) (fun c hc => h c (List.mem_cons_of_mem _ hc))

theorem scan_found (z : ZipHandle) (pyz : Option PyzipperModule) (zip_path target : String)
    (verbose : Bool) (clock : Nat → String) :
    ∀ cands (i : Nat) (hi : i < cands.length) (tried : Nat),
      (∀ c ∈ cands, pyTruthy c = true) →
      (∀ c ∈ cands.take i, (tryCandidate z pyz zip_path target c).2 = false) →
      (tryCandidate z pyz zip_path target (cands.get ⟨i, hi⟩)).2 = true →
      (scan z pyz zip_path target verbose clock tried cands).2
          = some (cands.get ⟨i, hi⟩) ∧
      ((scan z pyz zip_path target verbose clock tried cands).1).filter isReadCand
          = (cands.take (i + 1)).map Ev.readCand := by
  intro cands
  induction cands with
  | nil => intro i hi; exact absurd hi (by simp)
  | cons cand rest ih =>
    intro i hi tried htr hbef hhit
    have hp : pyTruthy cand = true := htr cand (List.mem_cons_self ..)
    cases i with
    | zero =>
      rw [scan_cons_found _ _ _ _ _ _ _ _ _ hp hhit]
      refine ⟨rfl, ?_⟩
      simp [List.filter_cons, isReadCand, tryCandidate_no_read]
    | succ j =>
      have hc : (tryCandidate z pyz zip_path target cand).2 = false :=
        hbef cand (by rw [List.take_succ_cons]; exact List.mem_cons_self ..)
      rw [scan_cons_miss _ _ _ _ _ _ _ _ _ hp hc]
      have hj : j < rest.length := Nat.lt_of_succ_lt_succ hi
      have ihr := ih j hj (tried + 1)
        (fun c hcm => htr c (List.mem_cons_of_mem _ hcm))
        (fun c hcm => hbef c (by rw [List.take_succ_cons]; exact List.mem_cons_of_mem _ hcm))
        hhit
      refine ⟨ihr.1, ?_⟩
      rw [List.take_succ_cons, List.map_cons]
      simp only [List.filter_cons, List.filter_append, isReadCand,
        tryCandidate_no_read, progressEvs_no_read, List.nil_append, ihr.2, if_true]

theorem scan_clock (z : ZipHandle) (pyz : Option PyzipperModule) (zip_path target : String)
    (verbose : Bool) (c1 c2 : Nat → String) :
    ∀ cands tried,
      (scan z pyz zip_path target verbose c1 tried cands).2
        = (scan z pyz zip_path target verbose c2 tried cands).2 := by
  intro cands
  induction cands with
  | nil => intro tried; rfl
  | cons cand rest ih =>
    intro tried
    by_cases hp : pyTruthy cand = false
    · rw [scan_cons_empty _ _ _ _ _ _ _ _ _ hp, scan_cons_empty _ _ _ _ _ _ _ _ _ hp]
      exact ih (tried + 1)
    · rw [Bool.not_eq_false] at hp
      by_cases hm : (tryCandidate z pyz zip_path target cand).2 = true
      · rw [scan_cons_found _ _ _ _ _ _ _ _ _ hp hm,
          scan_cons_found _ _ _ _ _ _ _ _ _ hp hm]
      · rw [Bool.not_eq_true] at hm
        rw [scan_cons_miss _ _ _ _ _ _ _ _ _ hp hm,
          scan_cons_miss _ _ _ _ _ _ _ _ _ hp hm]
        exact ih (tried + 1)

theorem close_not_in_pre (verbose : Bool) (pyz : Option PyzipperModule) (target : String) :
    Ev.close ∉ preEvents verbose pyz target := by
  intro h
  rcases preEvents_events verbose pyz target _ h with ⟨m, hm⟩ | hm <;> simp at hm

theorem close_not_in_scan (z : ZipHandle) (pyz : Option PyzipperModule)
    (zip_path target : String) (verbose : Bool) (clock : Nat → String)
    (cands : List String) (tried : Nat) :
    Ev.close ∉ (scan z pyz zip_path target verbose clock tried cands).1 := by
  intro h
  rcases scan_events_shape z pyz zip_path target verbose clock cands tried _ h with
    ⟨c, hc⟩ | ⟨m, hc⟩ | ⟨p, hc⟩ | ⟨p, hc⟩ <;> simp at hc

theorem probe_not_in_pre (verbose : Bool) (pyz : Option PyzipperModule)
    (target memb : String) (p : List Nat) :
    Ev.probePrimary memb p ∉ preEvents verbose pyz target ∧
    Ev.probeSecondary memb p ∉ preEvents verbose pyz target := by
  constructor <;>
  · intro h
    rcases preEvents_events verbose pyz target _ h with ⟨m, hm⟩ | hm <;> simp at hm

theorem scan_probe_target (z : ZipHandle) (pyz : Option PyzipperModule)
    (zip_path target : String) (verbose : Bool) (clock : Nat → String)
    (cands : List String) (tried : Nat) (memb : String) (p : List Nat)
    (h : Ev.probePrimary memb p ∈ (scan z pyz zip_path target verbose clock tried cands).1 ∨
         Ev.probeSecondary memb p ∈ (scan z pyz zip_path target verbose clock tried cands).1) :
    memb = target := by
  rcases h with h | h <;>
    rcases scan_events_shape z pyz zip_path target verbose clock cands tried _ h with
      ⟨c, hc⟩ | ⟨m, hc⟩ | ⟨q, hc⟩ | ⟨q, hc⟩ <;>
    first
    | (cases hc; rfl)
    | simp at hc

/-! ### The claims -/

/-- C1: when the first candidate (in wordlist order) that some
(encoding, capability) combination verifies sits at 0-based index `i`
(1-based position `i + 1`), `find_password` prints exactly that candidate
as its only standard-output line, returns exit code 0, and reads exactly
the first `i + 1` candidates from the wordlist — none after it. -/
theorem C1_first_match (env : Env) (zip_path wordlist_path : String)
    (verbose : Bool) (clock : Nat → String) (z : ZipHandle) (names : List String)
    (target : String) (more : List String) (cands : List String) (i : Nat)
    (hz : env.zipfileOpen zip_path = .ok z)
    (hn : z.namelistRes = .ok names)
    (hmem : names.filter (fun m => !endsWithSlash m) = target :: more)
    (hw : iter_wordlist env.fs wordlist_path = .ok cands)
    (hi : i < cands.length)
    (hbefore : ∀ c ∈ cands.take i,
      candMatches z env.pyzipperModule zip_path target c = false)
    (hhit : candMatches z env.pyzipperModule zip_path target (cands.get ⟨i, hi⟩) = true) :
    (find_password env zip_path wordlist_path verbose clock).exitCode = 0 ∧
    (find_password env zip_path wordlist_path verbose clock).stdout
      = [cands.get ⟨i, hi⟩] ∧
    ((find_password env zip_path wordlist_path verbose clock).events).filter isReadCand
      = (cands.take (i + 1)).map Ev.readCand := by
  have htr := iter_wordlist_truthy env.fs wordlist_path cands hw
  have hs := scan_found z env.pyzipperModule zip_path target verbose clock cands i hi 0
    htr hbefore hhit
  have hfp : find_password env zip_path wordlist_path verbose clock
      = ⟨0, [cands.get ⟨i, hi⟩],
          preEvents verbose env.pyzipperModule target
            ++ (scan z env.pyzipperModule zip_path target verbose clock 0 cands).1⟩ := by
    simp only [find_password, hz, hn, hmem, hw, hs.1]
  rw [hfp]
  exact ⟨rfl, rfl, by
    simp only [List.filter_append, preEvents_no_read, List.nil_append, hs.2]⟩

theorem C1_witness :
    (find_password envW "z.zip" "w" false (fun _ => "t")).exitCode = 0 ∧
    (find_password envW "z.zip" "w" false (fun _ => "t")).stdout = ["123"] ∧
    ((find_password envW "z.zip" "w" false (fun _ => "t")).events).filter isReadCand
      = [Ev.readCand "ad", Ev.readCand "123"] := by
  have h := C1_first_match envW "z.zip" "w" false (fun _ => "t") zW
    ["dir/", "a.txt", "b.txt"] "a.txt" ["b.txt"] ["ad", "123", "x"] 1
    rfl rfl (by decide) rfl (by decide) (by decide) (by decide)
  exact ⟨h.1, h.2.1.trans (by decide), h.2.2.trans (by decide)⟩

/-- C2: for every candidate, verification follows the spec's fixed order —
utf-8 before latin-1, the primary probe before the secondary, the secondary
only when the capability is present and the primary returned false, an
encoding whose byte conversion raises skipped silently — and a candidate
whose latin-1 bytes pass the primary probe is found even when every utf-8
attempt failed. -/
theorem C2_attempt_order (z : ZipHandle) (pyz : Option PyzipperModule)
    (zip_path target cand : String) :
    tryCandidate z pyz zip_path target cand
      = specAttempts target (try_zipfile_open z target)
          (pyz.map (fun m pwd => try_pyzipper zip_path target pwd m)) cand
          [Enc.utf8, Enc.latin1] ∧
    (∀ pwdL, encodeCand cand Enc.latin1 = some pwdL →
      try_zipfile_open z target pwdL = true →
      candMatches z pyz zip_path target cand = true) := by
  constructor
  · rw [tryCandidate]
    simp only [specAttempts, ← tryEncoding_eq_specEncAttempt]
    by_cases hu : (tryEncoding z pyz zip_path target cand Enc.utf8).2
    · simp [hu]
    · by_cases hl : (tryEncoding z pyz zip_path target cand Enc.latin1).2 <;>
        simp [hu, hl]
  · intro pwdL hL hp
    have hlat : (tryEncoding z pyz zip_path target cand Enc.latin1).2 = true := by
      simp only [tryEncoding, hL]
      simp [hp]
    rw [candMatches, tryCandidate]
    by_cases hu : (tryEncoding z pyz zip_path target cand Enc.utf8).2
    · simp [hu]
    · simp [hu, hlat]

/-- C3: the structural errors of the spec's taxonomy — archive missing,
archive malformed or unreadable, listing failure, no testable entry,
wordlist missing or unreadable — are exactly the runs that return exit
code 2; each prints a message on the error stream and nothing on standard
output. -/
theorem C3_structural_errors (env : Env) (zip_path wordlist_path : String)
    (verbose : Bool) (clock : Nat → String) :
    (structuralFailure env zip_path wordlist_path ↔
      (find_password env zip_path wordlist_path verbose clock).exitCode = 2) ∧
    (structuralFailure env zip_path wordlist_path →
      (find_password env zip_path wordlist_path verbose clock).stdout = [] ∧
      ∃ m, Ev.stderrLine m
        ∈ (find_password env zip_path wordlist_path verbose clock).events) := by
  cases hz : env.zipfileOpen zip_path with
  | error e =>
    have hsf : structuralFailure env zip_path wordlist_path := Or.inl ⟨e, hz⟩
    have hr : find_password env zip_path wordlist_path verbose clock
        = ⟨2, [], [Ev.stderrLine (zipOpenErrMsg zip_path e)]⟩ := by
      simp only [find_password, hz]
    rw [hr]
    exact ⟨⟨fun _ => rfl, fun _ => hsf⟩, fun _ => ⟨rfl, ⟨_, List.mem_cons_self ..⟩⟩⟩
  | ok z =>
    cases hn : z.namelistRes with
    | error m =>
      have hsf : structuralFailure env zip_path wordlist_path :=
        Or.inr ⟨z, hz, Or.inl ⟨m, hn⟩⟩
      have hr : find_password env zip_path wordlist_path verbose clock
          = ⟨2, [], [Ev.stderrLine ("Erro ao listar conteúdo do zip: " ++ m)]⟩ := by
        simp only [find_password, hz, hn]
      rw [hr]
      exact ⟨⟨fun _ => rfl, fun _ => hsf⟩, fun _ => ⟨rfl, ⟨_, List.mem_cons_self ..⟩⟩⟩
    | ok names =>
      cases hmem : names.filter (fun m => !endsWithSlash m) with
      | nil =>
        have hsf : structuralFailure env zip_path wordlist_path :=
          Or.inr ⟨z, hz, Or.inr ⟨names, hn, Or.inl hmem⟩⟩
        have hr : find_password env zip_path wordlist_path verbose clock
            = ⟨2, [], [Ev.stderrLine "Erro: ZIP não contém arquivos testáveis."]⟩ := by
          simp only [find_password, hz, hn, hmem]
        rw [hr]
        exact ⟨⟨fun _ => rfl, fun _ => hsf⟩, fun _ => ⟨rfl, ⟨_, List.mem_cons_self ..⟩⟩⟩
      | cons target more =>
        cases hw : iter_wordlist env.fs wordlist_path with
        | error e =>
          have hsf : structuralFailure env zip_path wordlist_path :=
            Or.inr ⟨z, hz, Or.inr ⟨names, hn, Or.inr ⟨e, hw⟩⟩⟩
          cases e with
          | fileNotFound =>
            have hr : find_password env zip_path wordlist_path verbose clock
                = ⟨2, [], preEvents verbose env.pyzipperModule target
                    ++ [Ev.stderrLine
                        ("Erro: wordlist \'" ++ wordlist_path ++ "\' não encontrada.")]⟩ := by
              simp only [find_password, hz, hn, hmem, hw]
            rw [hr]
            exact ⟨⟨fun _ => rfl, fun _ => hsf⟩,
              fun _ => ⟨rfl, ⟨_, List.mem_append_right _ (List.mem_cons_self ..)⟩⟩⟩
          | ioError m =>
            have hr : find_password env zip_path wordlist_path verbose clock
                = ⟨2, [], preEvents verbose env.pyzipperModule target
                    ++ [Ev.stderrLine ("Erro lendo wordlist: " ++ m)]⟩ := by
              simp only [find_password, hz, hn, hmem, hw]
            rw [hr]
            exact ⟨⟨fun _ => rfl, fun _ => hsf⟩,
              fun _ => ⟨rfl, ⟨_, List.mem_append_right _ (List.mem_cons_self ..)⟩⟩⟩
        | ok cands =>
          have hnsf : ¬ structuralFailure env zip_path wordlist_path := by
            intro hsf
            rcases hsf with ⟨e, he⟩ | ⟨z2, hz2, hrest⟩
            · rw [hz] at he; cases he
            · rw [hz] at hz2
              injection hz2 with hz3
              subst hz3
              rcases hrest with ⟨m, hm2⟩ | ⟨names2, hn2, hrest2⟩
              · rw [hn] at hm2; cases hm2
              · rw [hn] at hn2
                injection hn2 with hn3
                subst hn3
                rcases hrest2 with hm2 | ⟨e, he⟩
                · rw [hmem] at hm2; cases hm2
                · rw [hw] at he; cases he
          have hex : (find_password env zip_path wordlist_path verbose clock).exitCode = 0 ∨
              (find_password env zip_path wordlist_path verbose clock).exitCode = 1 := by
            cases hsc : (scan z env.pyzipperModule zip_path target verbose clock 0 cands).2 with
            | some c =>
              left
              simp only [find_password, hz, hn, hmem, hw, hsc]
            | none =>
              right
              simp only [find_password, hz, hn, hmem, hw, hsc]
          constructor
          · constructor
            · intro hsf; exact absurd hsf hnsf
            · intro h2
              rcases hex with h | h <;> rw [h] at h2 <;> cases h2
          · intro hsf; exact absurd hsf hnsf

/-- C4: a wordlist read to exhaustion with no (candidate, encoding,
capability) verification succeeding returns exit code 1 and emits nothing
on standard output. -/
theorem C4_exhausted (env : Env) (zip_path wordlist_path : String)
    (verbose : Bool) (clock : Nat → String) (z : ZipHandle) (names : List String)
    (target : String) (more : List String) (cands : List String)
    (hz : env.zipfileOpen zip_path = .ok z)
    (hn : z.namelistRes = .ok names)
    (hmem : names.filter (fun m => !endsWithSlash m) = target :: more)
    (hw : iter_wordlist env.fs wordlist_path = .ok cands)
    (hnone : ∀ c ∈ cands, candMatches z env.pyzipperModule zip_path target c = false) :
    (find_password env zip_path wordlist_path verbose clock).exitCode = 1 ∧
    (find_password env zip_path wordlist_path verbose clock).stdout = [] := by
  have hsc := scan_none z env.pyzipperModule zip_path target verbose clock cands 0 hnone
  have hfp : find_password env zip_path wordlist_path verbose clock
      = ⟨1, [], preEvents verbose env.pyzipperModule target
          ++ (scan z env.pyzipperModule zip_path target verbose clock 0 cands).1⟩ := by
    simp only [find_password, hz, hn, hmem, hw, hsc]
  rw [hfp]
  exact ⟨rfl, rfl⟩

theorem C4_witness :
    (find_password { envW with fs := fun _ => .ok [97, 10] }
      "z.zip" "w" false (fun _ => "t")).exitCode = 1 ∧
    (find_password { envW with fs := fun _ => .ok [97, 10] }
      "z.zip" "w" false (fun _ => "t")).stdout = [] :=
  C4_exhausted { envW with fs := fun _ => .ok [97, 10] } "z.zip" "w" false
    (fun _ => "t") zW ["dir/", "a.txt", "b.txt"] "a.txt" ["b.txt"] ["a"]
    rfl rfl (by decide) rfl (by decide)

/-- C5: the password oracle is the first entry of the archive's native
listing whose name does not end in the path separator — every probe is made
against it — and an archive with no such entry fails with exit code 2 and
an error message, before any verification. -/
theorem C5_target_selection (env : Env) (zip_path wordlist_path : String)
    (verbose : Bool) (clock : Nat → String) (z : ZipHandle) (names : List String)
    (hz : env.zipfileOpen zip_path = .ok z)
    (hn : z.namelistRes = .ok names) :
    (names.filter (fun m => !endsWithSlash m) = [] →
      find_password env zip_path wordlist_path verbose clock
        = ⟨2, [], [Ev.stderrLine "Erro: ZIP não contém arquivos testáveis."]⟩) ∧
    (∀ target more, names.filter (fun m => !endsWithSlash m) = target :: more →
      ∀ memb p,
        (Ev.probePrimary memb p
            ∈ (find_password env zip_path wordlist_path verbose clock).events ∨
         Ev.probeSecondary memb p
            ∈ (find_password env zip_path wordlist_path verbose clock).events) →
        memb = target) := by
  constructor
  · intro hmem
    simp only [find_password, hz, hn, hmem]
  · intro target more hmem memb p hev
    cases hw : iter_wordlist env.fs wordlist_path with
    | error e =>
      have hprobes := probe_not_in_pre verbose env.pyzipperModule target memb p
      cases e with
      | fileNotFound =>
        have hr : find_password env zip_path wordlist_path verbose clock
            = ⟨2, [], preEvents verbose env.pyzipperModule target
                ++ [Ev.stderrLine
                    ("Erro: wordlist \'" ++ wordlist_path ++ "\' não encontrada.")]⟩ := by
          simp only [find_password, hz, hn, hmem, hw]
        rw [hr] at hev
        rcases hev with h | h <;> rcases List.mem_append.mp h with h2 | h2 <;>
          first
          | exact absurd h2 hprobes.1
          | exact absurd h2 hprobes.2
          | simp at h2
      | ioError m =>
        have hr : find_password env zip_path wordlist_path verbose clock
            = ⟨2, [], preEvents verbose env.pyzipperModule target
                ++ [Ev.stderrLine ("Erro lendo wordlist: " ++ m)]⟩ := by
          simp only [find_password, hz, hn, hmem, hw]
        rw [hr] at hev
        rcases hev with h | h <;> rcases List.mem_append.mp h with h2 | h2 <;>
          first
          | exact absurd h2 hprobes.1
          | exact absurd h2 hprobes.2
          | simp at h2
    | ok cands =>
      have hprobes := probe_not_in_pre verbose env.pyzipperModule target memb p
      have hev2 : Ev.probePrimary memb p
            ∈ (scan z env.pyzipperModule zip_path target verbose clock 0 cands).1 ∨
          Ev.probeSecondary memb p
            ∈ (scan z env.pyzipperModule zip_path target verbose clock 0 cands).1 := by
        cases hsc : (scan z env.pyzipperModule zip_path target verbose clock 0 cands).2 with
        | some c =>
          have hr : find_password env zip_path wordlist_path verbose clock
              = ⟨0, [c], preEvents verbose env.pyzipperModule target
                  ++ (scan z env.pyzipperModule zip_path target verbose clock 0 cands).1⟩ := by
            simp only [find_password, hz, hn, hmem, hw, hsc]
          rw [hr] at hev
          rcases hev with h | h <;> rcases List.mem_append.mp h with h2 | h2 <;>
            first
            | exact absurd h2 hprobes.1
            | exact absurd h2 hprobes.2
            | exact Or.inl h2
            | exact Or.inr h2
        | none =>
          have hr : find_password env zip_path wordlist_path verbose clock
              = ⟨1, [], preEvents verbose env.pyzipperModule target
                  ++ (scan z env.pyzipperModule zip_path target verbose clock 0 cands).1⟩ := by
            simp only [find_password, hz, hn, hmem, hw, hsc]
          rw [hr] at hev
          rcases hev with h | h <;> rcases List.mem_append.mp h with h2 | h2 <;>
            first
            | exact absurd h2 hprobes.1
            | exact absurd h2 hprobes.2
            | exact Or.inl h2
            | exact Or.inr h2
      exact scan_probe_target z env.pyzipperModule zip_path target verbose clock
        cands 0 memb p hev2

theorem C5_witness :
    find_password
        { envW with zipfileOpen := fun _ => .ok { zW with namelistRes := .ok ["dir/"] } }
        "z.zip" "w" false (fun _ => "t")
      = ⟨2, [], [Ev.stderrLine "Erro: ZIP não contém arquivos testáveis."]⟩ :=
  (C5_target_selection
    { envW with zipfileOpen := fun _ => .ok { zW with namelistRes := .ok ["dir/"] } }
    "z.zip" "w" false (fun _ => "t") { zW with namelistRes := .ok ["dir/"] } ["dir/"]
    rfl rfl).1 (by decide)

/-- C6: `iter_wordlist` yields exactly the file's lines in file order with
trailing CR/LF stripped, omitting lines that are empty after stripping (so
every yielded string is non-empty); its decoding is total, so an existing
file never raises whatever its bytes; a missing path raises
`FileNotFoundError`. -/
theorem C6_iter_wordlist (fs : String → FsRead) (path : String) :
    (fs path = .notFound → iter_wordlist fs path = .error WlErr.fileNotFound) ∧
    (∀ bytes, fs path = .ok bytes →
      iter_wordlist fs path = .ok (specLines (utf8DecodeIgnore bytes)) ∧
      ∀ c ∈ specLines (utf8DecodeIgnore bytes), pyTruthy c = true) := by
  constructor
  · intro h
    rw [iter_wordlist, h]
  · intro bytes h
    refine ⟨iter_wordlist_ok fs path bytes h, ?_⟩
    intro c hc
    exact List.of_mem_filter hc

/-- C7: the two probes are total boolean functions of their oracles' raw
outcomes: they return true exactly when every stage (open, and the 1-byte
read; for pyzipper also the archive reopen) succeeds, and any raised
exception at any stage — `RuntimeError` or otherwise — uniformly yields
false rather than propagating. -/
theorem C7_probes_uniform (z : ZipHandle) (m : PyzipperModule)
    (zip_path member : String) (pwd : List Nat) :
    (try_zipfile_open z member pwd = true ↔
      z.openMember member pwd = .ok () ∧ z.readByte member pwd = .ok ()) ∧
    (try_pyzipper zip_path member pwd m = true ↔
      m.openArchive zip_path = .ok () ∧ m.openMember zip_path member pwd = .ok () ∧
      m.readByte zip_path member pwd = .ok ()) := by
  constructor
  · cases h1 : z.openMember member pwd with
    | error e => cases e <;> simp [try_zipfile_open, h1]
    | ok v =>
      cases v
      cases h2 : z.readByte member pwd with
      | error e => cases e <;> simp [try_zipfile_open, h1, h2]
      | ok v => cases v; simp [try_zipfile_open, h1, h2]
  · cases h1 : m.openArchive zip_path with
    | error e => cases e <;> simp [try_pyzipper, h1]
    | ok v =>
      cases v
      cases h2 : m.openMember zip_path member pwd with
      | error e => cases e <;> simp [try_pyzipper, h1, h2]
      | ok v =>
        cases v
        cases h3 : m.readByte zip_path member pwd with
        | error e => cases e <;> simp [try_pyzipper, h1, h2, h3]
        | ok v => cases v; simp [try_pyzipper, h1, h2, h3]

/-- C8 counterexample: a successful run (exit code 0) emits no release of
the archive handle, so the claim that `find_password` closes the handle on
every exit path fails on the code at this input. -/
theorem C8_counterexample :
    (find_password envW "z.zip" "w" false (fun _ => "t")).exitCode = 0 ∧
    Ev.close ∉ (find_password envW "z.zip" "w" false (fun _ => "t")).events := by
  constructor
  · decide
  · decide

/-- C8 (amended): `find_password` never performs an explicit close/release
of the archive handle on any exit path — the source has no `close()` call
and no `with` block for it; release is left to the language runtime after
the function returns. -/
theorem C8_never_closes (env : Env) (zip_path wordlist_path : String)
    (verbose : Bool) (clock : Nat → String) :
    Ev.close ∉ (find_password env zip_path wordlist_path verbose clock).events := by
  cases hz : env.zipfileOpen zip_path with
  | error e =>
    have hr : find_password env zip_path wordlist_path verbose clock
        = ⟨2, [], [Ev.stderrLine (zipOpenErrMsg zip_path e)]⟩ := by
      simp only [find_password, hz]
    rw [hr]
    simp
  | ok z =>
    cases hn : z.namelistRes with
    | error m =>
      have hr : find_password env zip_path wordlist_path verbose clock
          = ⟨2, [], [Ev.stderrLine ("Erro ao listar conteúdo do zip: " ++ m)]⟩ := by
        simp only [find_password, hz, hn]
      rw [hr]
      simp
    | ok names =>
      cases hmem : names.filter (fun m => !endsWithSlash m) with
      | nil =>
        have hr : find_password env zip_path wordlist_path verbose clock
            = ⟨2, [], [Ev.stderrLine "Erro: ZIP não contém arquivos testáveis."]⟩ := by
          simp only [find_password, hz, hn, hmem]
        rw [hr]
        simp
      | cons target more =>
        cases hw : iter_wordlist env.fs wordlist_path with
        | error e =>
          cases e with
          | fileNotFound =>
            have hr : find_password env zip_path wordlist_path verbose clock
                = ⟨2, [], preEvents verbose env.pyzipperModule target
                    ++ [Ev.stderrLine
                        ("Erro: wordlist \'" ++ wordlist_path ++ "\' não encontrada.")]⟩ := by
              simp only [find_password, hz, hn, hmem, hw]
            rw [hr]
            intro h
            rcases List.mem_append.mp h with h2 | h2
            · exact close_not_in_pre verbose env.pyzipperModule target h2
            · simp at h2
          | ioError m =>
            have hr : find_password env zip_path wordlist_path verbose clock
                = ⟨2, [], preEvents verbose env.pyzipperModule target
                    ++ [Ev.stderrLine ("Erro lendo wordlist: " ++ m)]⟩ := by
              simp only [find_password, hz, hn, hmem, hw]
            rw [hr]
            intro h
            rcases List.mem_append.mp h with h2 | h2
            · exact close_not_in_pre verbose env.pyzipperModule target h2
            · simp at h2
        | ok cands =>
          cases hsc : (scan z env.pyzipperModule zip_path target verbose clock 0 cands).2 with
          | some c =>
            have hr : find_password env zip_path wordlist_path verbose clock
                = ⟨0, [c], preEvents verbose env.pyzipperModule target
                    ++ (scan z env.pyzipperModule zip_path target verbose clock 0 cands).1⟩ := by
              simp only [find_password, hz, hn, hmem, hw, hsc]
            rw [hr]
            intro h
            rcases List.mem_append.mp h with h2 | h2
            · exact close_not_in_pre verbose env.pyzipperModule target h2
            · exact close_not_in_scan z env.pyzipperModule zip_path target verbose clock
                cands 0 h2
          | none =>
            have hr : find_password env zip_path wordlist_path verbose clock
                = ⟨1, [], preEvents verbose env.pyzipperModule target
                    ++ (scan z env.pyzipperModule zip_path target verbose clock 0 cands).1⟩ := by
              simp only [find_password, hz, hn, hmem, hw, hsc]
            rw [hr]
            intro h
            rcases List.mem_append.mp h with h2 | h2
            · exact close_not_in_pre verbose env.pyzipperModule target h2
            · exact close_not_in_scan z env.pyzipperModule zip_path target verbose clock
                cands 0 h2

/-- C9: determinism — two runs over the same environment (identical archive
and wordlist contents, identical availability of the optional AES
capability), differing only in the wall clock, produce the same exit code
and the same standard-output text. -/
theorem C9_deterministic (env : Env) (zip_path wordlist_path : String)
    (verbose : Bool) (c1 c2 : Nat → String) :
    (find_password env zip_path wordlist_path verbose c1).exitCode
      = (find_password env zip_path wordlist_path verbose c2).exitCode ∧
    (find_password env zip_path wordlist_path verbose c1).stdout
      = (find_password env zip_path wordlist_path verbose c2).stdout := by
  cases hz : env.zipfileOpen zip_path with
  | error e =>
    have h1 : find_password env zip_path wordlist_path verbose c1
        = ⟨2, [], [Ev.stderrLine (zipOpenErrMsg zip_path e)]⟩ := by
      simp only [find_password, hz]
    have h2 : find_password env zip_path wordlist_path verbose c2
        = ⟨2, [], [Ev.stderrLine (zipOpenErrMsg zip_path e)]⟩ := by
      simp only [find_password, hz]
    rw [h1, h2]
    exact ⟨rfl, rfl⟩
  | ok z =>
    cases hn : z.namelistRes with
    | error m =>
      have h1 : find_password env zip_path wordlist_path verbose c1
          = ⟨2, [], [Ev.stderrLine ("Erro ao listar conteúdo do zip: " ++ m)]⟩ := by
        simp only [find_password, hz, hn]
      have h2 : find_password env zip_path wordlist_path verbose c2
          = ⟨2, [], [Ev.stderrLine ("Erro ao listar conteúdo do zip: " ++ m)]⟩ := by
        simp only [find_password, hz, hn]
      rw [h1, h2]
      exact ⟨rfl, rfl⟩
    | ok names =>
      cases hmem : names.filter (fun m => !endsWithSlash m) with
      | nil =>
        have h1 : find_password env zip_path wordlist_path verbose c1
            = ⟨2, [], [Ev.stderrLine "Erro: ZIP não contém arquivos testáveis."]⟩ := by
          simp only [find_password, hz, hn, hmem]
        have h2 : find_password env zip_path wordlist_path verbose c2
            = ⟨2, [], [Ev.stderrLine "Erro: ZIP não contém arquivos testáveis."]⟩ := by
          simp only [find_password, hz, hn, hmem]
        rw [h1, h2]
        exact ⟨rfl, rfl⟩
      | cons target more =>
        cases hw : iter_wordlist env.fs wordlist_path with
        | error e =>
          cases e with
          | fileNotFound =>
            have h1 : (find_password env zip_path wordlist_path verbose c1).exitCode = 2 ∧
                (find_password env zip_path wordlist_path verbose c1).stdout = [] := by
              simp only [find_password, hz, hn, hmem, hw]
              exact ⟨by trivial, by trivial⟩
            have h2 : (find_password env zip_path wordlist_path verbose c2).exitCode = 2 ∧
                (find_password env zip_path wordlist_path verbose c2).stdout = [] := by
              simp only [find_password, hz, hn, hmem, hw]
              exact ⟨by trivial, by trivial⟩
            rw [h1.1, h2.1, h1.2, h2.2]
            exact ⟨rfl, rfl⟩
          | ioError m =>
            have h1 : (find_password env zip_path wordlist_path verbose c1).exitCode = 2 ∧
                (find_password env zip_path wordlist_path verbose c1).stdout = [] := by
              simp only [find_password, hz, hn, hmem, hw]
              exact ⟨by trivial, by trivial⟩
            have h2 : (find_password env zip_path wordlist_path verbose c2).exitCode = 2 ∧
                (find_password env zip_path wordlist_path verbose c2).stdout = [] := by
              simp only [find_password, hz, hn, hmem, hw]
              exact ⟨by trivial, by trivial⟩
            rw [h1.1, h2.1, h1.2, h2.2]
            exact ⟨rfl, rfl⟩
        | ok cands =>
          have hsc := scan_clock z env.pyzipperModule zip_path target verbose c1 c2 cands 0
          cases h1 : (scan z env.pyzipperModule zip_path target verbose c1 0 cands).2 with
          | some c =>
            have h2 : (scan z env.pyzipperModule zip_path target verbose c2 0 cands).2
                = some c := by rw [← hsc, h1]
            have hr1 : (find_password env zip_path wordlist_path verbose c1).exitCode = 0 ∧
                (find_password env zip_path wordlist_path verbose c1).stdout = [c] := by
              simp only [find_password, hz, hn, hmem, hw, h1]
              exact ⟨by trivial, by trivial⟩
            have hr2 : (find_password env zip_path wordlist_path verbose c2).exitCode = 0 ∧
                (find_password env zip_path wordlist_path verbose c2).stdout = [c] := by
              simp only [find_password, hz, hn, hmem, hw, h2]
              exact ⟨by trivial, by trivial⟩
            rw [hr1.1, hr2.1, hr1.2, hr2.2]
            exact ⟨rfl, rfl⟩
          | none =>
            have h2 : (scan z env.pyzipperModule zip_path target verbose c2 0 cands).2
                = none := by rw [← hsc, h1]
            have hr1 : (find_password env zip_path wordlist_path verbose c1).exitCode = 1 ∧
                (find_password env zip_path wordlist_path verbose c1).stdout = [] := by
              simp only [find_password, hz, hn, hmem, hw, h1]
              exact ⟨by trivial, by trivial⟩
            have hr2 : (find_password env zip_path wordlist_path verbose c2).exitCode = 1 ∧
                (find_password env zip_path wordlist_path verbose c2).stdout = [] := by
              simp only [find_password, hz, hn, hmem, hw, h2]
              exact ⟨by trivial, by trivial⟩
            rw [hr1.1, hr2.1, hr1.2, hr2.2]
            exact ⟨rfl, rfl⟩

/-- C10: archive errors take precedence over wordlist errors — when the
archive cannot be opened the run reports exactly the archive error with
exit code 2 and empty standard output, and the wordlist file is never
opened, whatever the wordlist path names. -/
theorem C10_archive_error_first (env : Env) (zip_path wordlist_path : String)
    (verbose : Bool) (clock : Nat → String) (e : ZipOpenErr)
    (h : env.zipfileOpen zip_path = .error e) :
    find_password env zip_path wordlist_path verbose clock
      = ⟨2, [], [Ev.stderrLine (zipOpenErrMsg zip_path e)]⟩ ∧
    Ev.wordlistOpen ∉ (find_password env zip_path wordlist_path verbose clock).events := by
  have h1 : find_password env zip_path wordlist_path verbose clock
      = ⟨2, [], [Ev.stderrLine (zipOpenErrMsg zip_path e)]⟩ := by
    simp only [find_password, h]
  refine ⟨h1, ?_⟩
  rw [h1]
  simp

theorem C10_witness :
    find_password { envW with zipfileOpen := fun _ => .error ZipOpenErr.fileNotFound }
        "a.zip" "missing.txt" false (fun _ => "t")
      = ⟨2, [], [Ev.stderrLine (zipOpenErrMsg "a.zip" ZipOpenErr.fileNotFound)]⟩ ∧
    Ev.wordlistOpen ∉ (find_password
        { envW with zipfileOpen := fun _ => .error ZipOpenErr.fileNotFound }
        "a.zip" "missing.txt" false (fun _ => "t")).events :=
  C10_archive_error_first
    { envW with zipfileOpen := fun _ => .error ZipOpenErr.fileNotFound }
    "a.zip" "missing.txt" false (fun _ => "t") ZipOpenErr.fileNotFound rfl

end BruteZip
